import Mathlib

/-!
Verification development for the Delaware bids extraction scripts
(`scraper.py`, the primary state machine, and `end.py`, the list-collecting
variant).  The Python code is shallowly embedded: Selenium cells become a
`Cell` structure, the Excel store becomes a `StoreFile` value, Python dicts
become association lists in insertion order, `str()` becomes `pyStr`, and
the fault points of the real code (modal open failure, `PermissionError`,
other I/O errors) become explicit fault attributes of the inputs.  The
orchestration functions mirror the Python control flow line by line and
record the observable actions (skip log, modal open, append call, row
error, page fetch, pagination advance) in an event trace.
-/

namespace BidScraper

/-- A Python value appearing in a scraped record: either `None` or a string.
Only the `Bid ID` field can be `None` (`get_attribute` may return null). -/
inductive PyVal
  | vNone
  | vStr (s : String)
deriving DecidableEq

/-- Python `str()` applied to a `PyVal`: `str(None)` is the text `None`. -/
def pyStrV : PyVal → String
  | .vNone => "None"
  | .vStr s => s

/-- Python `str()` applied to an optional attribute value. -/
def pyStr : Option String → String
  | Option.none => "None"
  | some s => s

/-- Wrap an optional attribute value as a stored Python value. -/
def optVal : Option String → PyVal
  | Option.none => .vNone
  | some s => .vStr s

/-- A Python dict in insertion order (keys are field names). -/
abbrev Dict := List (String × PyVal)

/-- The keys of a dict, in insertion order. -/
def dkeys (d : Dict) : List String := d.map Prod.fst

/-- Dict lookup (first binding of the key). -/
def dlookup (k : String) (d : Dict) : Option PyVal := List.lookup k d

/-- Python dict insertion: overwrite an existing key in place, else append. -/
def dinsert (d : Dict) (k : String) (v : PyVal) : Dict :=
  if k ∈ dkeys d then d.map (fun p => if p.1 = k then (k, v) else p)
  else d ++ [(k, v)]

/-- Python `{**a, **b}`: insert the bindings of `b` into `a`, left to right. -/
def dmerge (a b : Dict) : Dict := b.foldl (fun d p => dinsert d p.1 p.2) a

/-- One `td` cell of a grid row: its `title` attribute (possibly absent)
and its visible text. -/
structure Cell where
  title : Option String
  text : String
deriving DecidableEq

/-- Access `cells[i]` (guarded by the length check in the callers). -/
def cellD (cells : List Cell) (i : Nat) : Cell := cells.getD i ⟨Option.none, ""⟩

/-- Content of the details modal for one row, as the adapter would see it:
each labelled field is present or absent, plus the document links. -/
structure ModalContent where
  contactEmail : Option String
  adDate : Option String
  deadline : Option String
  importantMsg : Option String
  documents : List (String × String)
deriving DecidableEq

/-- The `get_text` helper of `extract_modal_data`: the stripped text of the
element, or the sentinel `N/A` when the element is absent. -/
def getTextOr (o : Option String) : String := (o.map String.trim).getD "N/A"

/-- Python `str(documents)` rendering of the document-link dict. -/
def docsStr (docs : List (String × String)) : String :=
  String.intercalate ", " (docs.map (fun p => p.1 ++ ": " ++ p.2))

/-- Fault injected at the `append_to_excel` call for a given row:
no fault, a `PermissionError` (file locked), or any other I/O exception. -/
inductive AppendFault
  | none
  | permission
  | other
deriving DecidableEq

/-- One grid row together with the deterministic behaviour of the remote
surface for it: its cells, its modal content, whether opening the details
modal raises, and which fault (if any) the append for it runs into. -/
structure BidRow where
  cells : List Cell
  modal : ModalContent
  openFails : Bool
  appendFault : AppendFault
deriving DecidableEq

/-- State of the Excel store file: absent, unreadable (both `pd.read_excel`
and `load_workbook` raise on it), or readable with a header row (column
names) and a sequence of records. -/
inductive StoreFile
  | absent
  | corrupt
  | readable (cols : List String) (records : List Dict)
deriving DecidableEq

/-- Severity of a log line. -/
inductive Severity
  | info
  | warning
  | error
deriving DecidableEq

/-- One log line: severity and message. -/
structure LogEvent where
  sev : Severity
  msg : String
deriving DecidableEq

/-- `astype(str)` applied to one read-back cell value.  A stored `.vNone`
models the empty Excel cell that `to_excel` writes for a Python `None`;
`read_excel` yields NaN for it, which `astype(str)` renders as the text
`nan` — not `None`. -/
def astypeStr : PyVal → String
  | .vNone => "nan"
  | .vStr s => s

/-- `str()` of the `Bid ID` column entry of a stored record
(`df_existing["Bid ID"].astype(str)` applied to one record): a record
whose `Bid ID` was `None` reads back as `nan`. -/
def storedIdStr (r : Dict) : String := astypeStr ((dlookup "Bid ID" r).getD .vNone)

/-- Embedding of `load_processed_bid_ids` (scraper.py lines 80-100): total
over store states, returning the recovered id set and the log lines. -/
def load_processed_bid_ids : StoreFile → Finset String × List LogEvent
  | .absent => (∅, [⟨.info, "No existing Excel file found. Starting fresh."⟩])
  | .corrupt => (∅, [⟨.error, "Error reading Excel file"⟩])
  | .readable cols recs =>
    if "Bid ID" ∈ cols then
      ((recs.map storedIdStr).toFinset,
        [⟨.info, "Loaded previously scraped bid IDs."⟩])
    else
      (∅, [⟨.warning, "Column Bid ID not found in Excel. Starting with an empty set."⟩])

/-- Embedding of `append_to_excel` (scraper.py lines 102-122).  The creation
path (`df_row.to_excel` when the file does not exist) is outside the
`try` block, so a fault there escapes as `Except.error`; on the path where
the file exists, `PermissionError` and any other exception are caught and
logged, leaving the store unchanged.  A `.vNone` field value in a stored
record stands for the empty cell `to_excel` writes for Python `None`: the
original `None` is lost on persistence and reads back as NaN (`nan` after
`astype(str)`, see `astypeStr`). -/
def append_to_excel (bid_data : Dict) (file : StoreFile) (fault : AppendFault) :
    Except AppendFault (StoreFile × List LogEvent) :=
  match file with
  | .absent =>
    match fault with
    | .none =>
      .ok (.readable (dkeys bid_data) [bid_data],
        [⟨.info, "Created new Excel file with headers."⟩])
    | f => .error f
  | .corrupt =>
    .ok (.corrupt, [⟨.error, "Failed to save data to Excel"⟩])
  | .readable cols recs =>
    match fault with
    | .none => .ok (.readable cols (recs ++ [bid_data]), [])
    | .permission =>
      .ok (.readable cols recs,
        [⟨.error, "Permission denied: could not write to the Excel file. It may be open."⟩])
    | .other =>
      .ok (.readable cols recs, [⟨.error, "Failed to save data to Excel"⟩])

/-- The summary dict built from the row cells (scraper.py lines 184-193). -/
def bid_summary (category : String) (bid_id : Option String) (cells : List Cell) : Dict :=
  [("Category", .vStr category),
   ("Bid ID", optVal bid_id),
   ("Contract Number", .vStr (cellD cells 1).text.trim),
   ("Title", .vStr (cellD cells 2).text.trim),
   ("Open Date", .vStr (cellD cells 3).text.trim),
   ("Deadline", .vStr (cellD cells 4).text.trim),
   ("Agency", .vStr (cellD cells 5).text.trim),
   ("UNSPSC", .vStr (cellD cells 6).text.trim)]

/-- Embedding of `extract_modal_data` (scraper.py lines 213-239). -/
def extract_modal_data (m : ModalContent) : Dict :=
  [("Contact Email", .vStr (getTextOr m.contactEmail)),
   ("Solicitation Ad Date", .vStr (getTextOr m.adDate)),
   ("Deadline for Bid Responses", .vStr (getTextOr m.deadline)),
   ("Important Message", .vStr (getTextOr m.importantMsg)),
   ("Documents", .vStr (if m.documents.isEmpty then "N/A" else docsStr m.documents))]

/-- Observable actions of the orchestrator, recorded as a trace. -/
inductive Event
  | logSkip (id : String)
  | openDetail
  | appendCall
  | logSuccess (id : String)
  | rowError
  | recoveryClose
  | fetchRows (cat : String) (n : Nat)
  | advance (ok : Bool)
  | catError (cat : String)
deriving DecidableEq

/-- Mutable state threaded through the run: the store file, the in-memory
`processed_bid_ids` set, and the event trace. -/
structure ScrapeState where
  store : StoreFile
  seen : Finset String
  trace : List Event
deriving DecidableEq

/-- Append events to the trace (instrumentation only; store and seen are
untouched). -/
def pushTrace (st : ScrapeState) (es : List Event) : ScrapeState :=
  { st with trace := st.trace ++ es }

/-- Embedding of `process_bid_row` (scraper.py lines 169-211).  The second
component is `true` when an exception escapes the function (modal open
failure, or an append fault on the file-creation path). -/
def process_bid_row (category : String) (row : BidRow) (st : ScrapeState) :
    ScrapeState × Bool :=
  if row.cells.length < 7 then (st, false)
  else
    let bid_id := (cellD row.cells 0).title
    if pyStr bid_id ∈ st.seen then
      (pushTrace st [.logSkip (pyStr bid_id)], false)
    else
      let st1 : ScrapeState := pushTrace st [.openDetail]
      if row.openFails then (st1, true)
      else
        let full := dmerge (bid_summary category bid_id row.cells)
          (extract_modal_data row.modal)
        let st2 : ScrapeState := pushTrace st1 [.appendCall]
        match append_to_excel full st2.store row.appendFault with
        | .error _ => (st2, true)
        | .ok (file2, _) =>
          ({ pushTrace st2 [.logSuccess (pyStr bid_id)] with
              store := file2,
              seen := insert (pyStr bid_id) st2.seen }, false)

/-- One iteration of the row loop of `scrape_bids_from_table` (scraper.py
lines 157-163): run the row, and log the error if an exception escaped. -/
def rowStep (category : String) (st : ScrapeState) (row : BidRow) : ScrapeState :=
  match process_bid_row category row st with
  | (st', false) => st'
  | (st', true) => pushTrace st' [.rowError]

/-- The row loop over one page of rows. -/
def process_rows (category : String) (rows : List BidRow) (st : ScrapeState) :
    ScrapeState :=
  rows.foldl (rowStep category) st

/-- Navigation state: the rows of the current page and the remaining pages
the grid would show on successive next-clicks. -/
structure NavState where
  current : List BidRow
  rest : List (List BidRow)
deriving DecidableEq

/-- Embedding of `navigate_to_next_page` (scraper.py lines 241-257): when
no further page exists the next affordance is disabled and the function
returns `false` without clicking (no navigation-state change); otherwise it
clicks and the grid advances. -/
def navigate_to_next_page : NavState → Bool × NavState
  | ⟨cur, []⟩ => (false, ⟨cur, []⟩)
  | ⟨_, p :: ps⟩ => (true, ⟨p, ps⟩)

/-- Embedding of `scrape_bids_from_table` (scraper.py lines 149-167): fetch
the rows of the current page, run the row loop, then advance or stop. -/
def scrape_bids_from_table (category : String) :
    List BidRow → List (List BidRow) → ScrapeState → ScrapeState
  | cur, [], st =>
    pushTrace (process_rows category cur
      (pushTrace st [.fetchRows category cur.length])) [.advance false]
  | cur, p :: ps, st =>
    scrape_bids_from_table category p ps
      (pushTrace (process_rows category cur
        (pushTrace st [.fetchRows category cur.length])) [.advance true])

/-- One category of the remote data set: its name, whether selecting its
tab fails, and its pages (an empty page list means the table never becomes
present, which raises inside the category-level `try`). -/
structure BidCategory where
  name : String
  tabFails : Bool
  pages : List (List BidRow)
deriving DecidableEq

/-- The body of the category loop (scraper.py lines 140-147): process one
category inside a `try` whose handler logs and moves on; a category whose
tab cannot be clicked, or whose table never becomes present, only yields a
logged category error. -/
def catStep (st : ScrapeState) (c : BidCategory) : ScrapeState :=
  if c.tabFails then pushTrace st [.catError c.name]
  else
    match c.pages with
    | [] => pushTrace st [.catError c.name]
    | p :: ps => scrape_bids_from_table c.name p ps st

/-- Embedding of `process_bid_categories` (scraper.py lines 133-147). -/
def process_bid_categories (cats : List BidCategory) (st : ScrapeState) :
    ScrapeState :=
  cats.foldl catStep st

/-- Embedding of `main` restricted to the core (scraper.py lines 33-36):
load the seen set from the store file, then drive the categories. -/
def runScraper (cats : List BidCategory) (file : StoreFile) : ScrapeState :=
  process_bid_categories cats
    { store := file, seen := (load_processed_bid_ids file).1, trace := [] }

/-- Number of records held by a store file. -/
def numRecords : StoreFile → Nat
  | .readable _ recs => recs.length
  | _ => 0

/-- The merged record written for one row. -/
def fullRecord (category : String) (bid_id : Option String) (cells : List Cell)
    (m : ModalContent) : Dict :=
  dmerge (bid_summary category bid_id cells) (extract_modal_data m)

/-- The id set recoverable from a store file (what a fresh
`load_processed_bid_ids` would return). -/
def idsOf : StoreFile → Finset String
  | .readable cols recs =>
    if "Bid ID" ∈ cols then (recs.map storedIdStr).toFinset else ∅
  | _ => ∅

/-- Invariant of every store the scraper itself produces from a fresh
start: the file is absent or readable with a `Bid ID` column. -/
def storeInv : StoreFile → Prop
  | .absent => True
  | .corrupt => False
  | .readable cols _ => "Bid ID" ∈ cols

/-- Evolution order on store files along a run: ids only grow, and a
readable file stays readable with the same header. -/
structure StoreLE (a b : StoreFile) : Prop where
  ids_le : idsOf a ⊆ idsOf b
  keep_readable : ∀ cols recs, a = .readable cols recs →
    ∃ recs2, b = .readable cols recs2

/-- Whether an event is a `currentPageRows` fetch. -/
def isFetch : Event → Bool
  | .fetchRows _ _ => true
  | _ => false

-- The row loop of end.py (`process_bids_for_status`, lines 90-133): the
-- state is the accumulated list plus an event trace.

/-- One grid row of the end.py variant, with its detail dict and whether
processing it raises after the column guard. -/
structure EndRow where
  cells : List Cell
  detail : Dict
  rowFails : Bool
deriving DecidableEq

/-- The summary dict built by end.py from the row cells (lines 98-106). -/
def end_bid_data (status : String) (cells : List Cell) : Dict :=
  [("Contract Number", .vStr (cellD cells 0).text),
   ("Contract Title", .vStr (cellD cells 1).text),
   ("Open Date", .vStr (cellD cells 2).text),
   ("Deadline Date", .vStr (cellD cells 3).text),
   ("Agency Code", .vStr (cellD cells 4).text),
   ("UNSPSC", .vStr (cellD cells 5).text),
   ("Status", .vStr status)]

/-- One iteration of end.py's row loop (lines 90-133): a short row is
skipped, a raising row is logged and the stray modal close is attempted in
the handler, and otherwise the merged record joins the list. -/
def end_row_step (status : String) (acc : List Dict × List Event) (r : EndRow) :
    List Dict × List Event :=
  if r.cells.length < 6 then acc
  else if r.rowFails then (acc.1, acc.2 ++ [.rowError, .recoveryClose])
  else (acc.1 ++ [dmerge (end_bid_data status r.cells) r.detail], acc.2)

/-- end.py's row loop over the rows of one page. -/
def process_bids_for_status (status : String) (rows : List EndRow)
    (acc : List Dict × List Event) : List Dict × List Event :=
  rows.foldl (end_row_step status) acc

/-- The deduplication key of a row: `str()` of the title attribute of its
first cell. -/
def rowId (row : BidRow) : String := pyStr (cellD row.cells 0).title

/-- The merged record the scraper builds for a row under a category. -/
def rowRecord (category : String) (row : BidRow) : Dict :=
  fullRecord category (cellD row.cells 0).title row.cells row.modal

section DictLemmas

theorem dkeys_cons (k : String) (v : PyVal) (d : Dict) :
    dkeys ((k, v) :: d) = k :: dkeys d := rfl

theorem dkeys_append (a b : Dict) : dkeys (a ++ b) = dkeys a ++ dkeys b := by
  simp [dkeys]

theorem dinsert_fresh (a : Dict) (k : String) (v : PyVal) (h : k ∉ dkeys a) :
    dinsert a k v = a ++ [(k, v)] := by
  simp [dinsert, h]

/-- Merging a dict whose keys are fresh and mutually distinct is plain
concatenation. -/
theorem dmerge_of_fresh : ∀ (b a : Dict), (∀ k, k ∈ dkeys b → k ∉ dkeys a) →
    (dkeys b).Nodup → dmerge a b = a ++ b
  | [], a, _, _ => by simp [dmerge]
  | (k, v) :: bs, a, hfresh, hnd => by
    have hk : k ∉ dkeys a := hfresh k (by rw [dkeys_cons]; exact List.mem_cons_self k _)
    rw [dkeys_cons] at hfresh hnd
    have hnotk : k ∉ dkeys bs := (List.nodup_cons.mp hnd).1
    have hnd' : (dkeys bs).Nodup := (List.nodup_cons.mp hnd).2
    have step : dmerge a ((k, v) :: bs) = dmerge (a ++ [(k, v)]) bs := by
      simp [dmerge, dinsert_fresh a k v hk]
    have hfresh' : ∀ k2, k2 ∈ dkeys bs → k2 ∉ dkeys (a ++ [(k, v)]) := by
      intro k2 hk2
      rw [dkeys_append]
      intro hmem
      rcases List.mem_append.mp hmem with h1 | h1
      · exact hfresh k2 (List.mem_cons_of_mem _ hk2) h1
      · have hkk : k2 = k := by simpa [dkeys] using h1
        exact hnotk (hkk ▸ hk2)
    rw [step, dmerge_of_fresh bs (a ++ [(k, v)]) hfresh' hnd', List.append_assoc]
    simp

theorem dkeys_summary (c : String) (b : Option String) (cells : List Cell) :
    dkeys (bid_summary c b cells) =
      ["Category", "Bid ID", "Contract Number", "Title", "Open Date", "Deadline",
       "Agency", "UNSPSC"] := rfl

theorem dkeys_modal (m : ModalContent) :
    dkeys (extract_modal_data m) =
      ["Contact Email", "Solicitation Ad Date", "Deadline for Bid Responses",
       "Important Message", "Documents"] := rfl

/-- The merged record is the plain concatenation of summary and detail. -/
theorem fullRecord_eq_append (c : String) (b : Option String) (cells : List Cell)
    (m : ModalContent) :
    fullRecord c b cells m = bid_summary c b cells ++ extract_modal_data m := by
  apply dmerge_of_fresh
  · intro k hk
    rw [dkeys_modal] at hk
    rw [dkeys_summary]
    fin_cases hk <;> decide
  · rw [dkeys_modal]
    decide

theorem dlookup_cons_self (k : String) (v : PyVal) (d : Dict) :
    dlookup k ((k, v) :: d) = some v := by
  simp [dlookup, List.lookup]

theorem dlookup_cons_ne (k k2 : String) (v : PyVal) (d : Dict) (h : k ≠ k2) :
    dlookup k ((k2, v) :: d) = dlookup k d := by
  simp [dlookup, List.lookup, beq_false_of_ne h]

theorem dlookup_append_left : ∀ (a : Dict) (b : Dict) (k : String) (v : PyVal),
    dlookup k a = some v → dlookup k (a ++ b) = some v
  | [], _, _, _, h => by simp [dlookup, List.lookup] at h
  | (k2, v2) :: as2, b, k, v, h => by
    by_cases hk : k = k2
    · subst hk
      rw [dlookup_cons_self] at h
      simpa [dlookup_cons_self] using h
    · rw [dlookup_cons_ne _ _ _ _ hk] at h
      rw [List.cons_append, dlookup_cons_ne _ _ _ _ hk]
      exact dlookup_append_left as2 b k v h

theorem dlookup_append_right : ∀ (a : Dict) (b : Dict) (k : String),
    k ∉ dkeys a → dlookup k (a ++ b) = dlookup k b
  | [], _, _, _ => rfl
  | (k2, v2) :: as2, b, k, h => by
    rw [dkeys_cons] at h
    have hk : k ≠ k2 := fun hkk => h (hkk ▸ List.mem_cons_self k2 _)
    rw [List.cons_append, dlookup_cons_ne _ _ _ _ hk]
    exact dlookup_append_right as2 b k (fun hm => h (List.mem_cons_of_mem _ hm))

/-- The merged record keeps the raw `Bid ID` value of the summary. -/
theorem dlookup_full_bidid (c : String) (b : Option String) (cells : List Cell)
    (m : ModalContent) :
    dlookup "Bid ID" (fullRecord c b cells m) = some (optVal b) := by
  rw [fullRecord_eq_append]
  apply dlookup_append_left
  rw [bid_summary, dlookup_cons_ne _ _ _ _ (by decide), dlookup_cons_self]

/-- A merged record with a present id reads back with that id string. -/
theorem storedIdStr_fullRecord_some (c s : String) (cells : List Cell)
    (m : ModalContent) : storedIdStr (fullRecord c (some s) cells m) = s := by
  rw [storedIdStr, dlookup_full_bidid]
  rfl

/-- A merged record with a null id reads back as `nan`, not as the in-run
dedup key `None`. -/
theorem storedIdStr_fullRecord_none (c : String) (cells : List Cell)
    (m : ModalContent) :
    storedIdStr (fullRecord c Option.none cells m) = "nan" := by
  rw [storedIdStr, dlookup_full_bidid]
  rfl

end DictLemmas

section RowBranch

theorem pbr_malformed (cat : String) (row : BidRow) (st : ScrapeState)
    (h : row.cells.length < 7) : process_bid_row cat row st = (st, false) := by
  simp [process_bid_row, h]

theorem pbr_skip (cat : String) (row : BidRow) (st : ScrapeState)
    (h7 : ¬ row.cells.length < 7) (hs : rowId row ∈ st.seen) :
    process_bid_row cat row st =
      (pushTrace st [.logSkip (rowId row)], false) := by
  rw [rowId] at hs
  simp [process_bid_row, h7, hs, rowId]

theorem pbr_openfail (cat : String) (row : BidRow) (st : ScrapeState)
    (h7 : ¬ row.cells.length < 7) (hs : rowId row ∉ st.seen)
    (ho : row.openFails = true) :
    process_bid_row cat row st =
      (pushTrace st [.openDetail], true) := by
  rw [rowId] at hs
  simp [process_bid_row, h7, hs, ho]

theorem pbr_proc (cat : String) (row : BidRow) (st : ScrapeState)
    (h7 : ¬ row.cells.length < 7) (hs : rowId row ∉ st.seen)
    (ho : row.openFails = false) :
    process_bid_row cat row st =
      match append_to_excel (rowRecord cat row) st.store row.appendFault with
      | .error _ => (pushTrace st [.openDetail, .appendCall], true)
      | .ok (file2, _) =>
        ({ pushTrace st [.openDetail, .appendCall, .logSuccess (rowId row)] with
            store := file2, seen := insert (rowId row) st.seen },
          false) := by
  rw [rowId] at hs
  cases happ : append_to_excel (rowRecord cat row) st.store row.appendFault with
  | error f =>
    rw [rowRecord, fullRecord] at happ
    simp [process_bid_row, h7, hs, ho, happ, rowId, pushTrace]
  | ok p =>
    obtain ⟨file2, logs⟩ := p
    rw [rowRecord, fullRecord] at happ
    simp [process_bid_row, h7, hs, ho, happ, rowId, pushTrace]

theorem pbr_created (cat : String) (row : BidRow) (st : ScrapeState)
    (h7 : ¬ row.cells.length < 7) (hs : rowId row ∉ st.seen)
    (ho : row.openFails = false) (hst : st.store = .absent)
    (hf : row.appendFault = .none) :
    process_bid_row cat row st =
      ({ pushTrace st [.openDetail, .appendCall, .logSuccess (rowId row)] with
          store := .readable (dkeys (rowRecord cat row)) [rowRecord cat row],
          seen := insert (rowId row) st.seen },
        false) := by
  rw [pbr_proc cat row st h7 hs ho, hst, hf]
  rfl

theorem pbr_escape (cat : String) (row : BidRow) (st : ScrapeState)
    (h7 : ¬ row.cells.length < 7) (hs : rowId row ∉ st.seen)
    (ho : row.openFails = false) (hst : st.store = .absent)
    (hf : row.appendFault ≠ .none) :
    process_bid_row cat row st =
      (pushTrace st [.openDetail, .appendCall], true) := by
  rw [pbr_proc cat row st h7 hs ho, hst]
  cases hfc : row.appendFault with
  | none => exact absurd hfc hf
  | permission => rfl
  | other => rfl

theorem pbr_appended (cat : String) (row : BidRow) (st : ScrapeState)
    (cols : List String) (recs : List Dict)
    (h7 : ¬ row.cells.length < 7) (hs : rowId row ∉ st.seen)
    (ho : row.openFails = false) (hst : st.store = .readable cols recs)
    (hf : row.appendFault = .none) :
    process_bid_row cat row st =
      ({ pushTrace st [.openDetail, .appendCall, .logSuccess (rowId row)] with
          store := .readable cols (recs ++ [rowRecord cat row]),
          seen := insert (rowId row) st.seen },
        false) := by
  rw [pbr_proc cat row st h7 hs ho, hst, hf]
  rfl

theorem pbr_caught (cat : String) (row : BidRow) (st : ScrapeState)
    (cols : List String) (recs : List Dict)
    (h7 : ¬ row.cells.length < 7) (hs : rowId row ∉ st.seen)
    (ho : row.openFails = false) (hst : st.store = .readable cols recs)
    (hf : row.appendFault ≠ .none) :
    process_bid_row cat row st =
      ({ pushTrace st [.openDetail, .appendCall, .logSuccess (rowId row)] with
          store := .readable cols recs,
          seen := insert (rowId row) st.seen },
        false) := by
  rw [pbr_proc cat row st h7 hs ho, hst]
  cases hfc : row.appendFault with
  | none => exact absurd hfc hf
  | permission => rfl
  | other => rfl

theorem pbr_corrupt (cat : String) (row : BidRow) (st : ScrapeState)
    (h7 : ¬ row.cells.length < 7) (hs : rowId row ∉ st.seen)
    (ho : row.openFails = false) (hst : st.store = .corrupt) :
    process_bid_row cat row st =
      ({ pushTrace st [.openDetail, .appendCall, .logSuccess (rowId row)] with
          store := .corrupt,
          seen := insert (rowId row) st.seen },
        false) := by
  rw [pbr_proc cat row st h7 hs ho, hst]
  rfl

end RowBranch

section StoreEvolution

@[simp] theorem pushTrace_store (st : ScrapeState) (es : List Event) :
    (pushTrace st es).store = st.store := rfl

@[simp] theorem pushTrace_seen (st : ScrapeState) (es : List Event) :
    (pushTrace st es).seen = st.seen := rfl

theorem pushTrace_trace (st : ScrapeState) (es : List Event) :
    (pushTrace st es).trace = st.trace ++ es := rfl

theorem idsOf_readable (cols : List String) (recs : List Dict)
    (h : "Bid ID" ∈ cols) :
    idsOf (.readable cols recs) = (recs.map storedIdStr).toFinset := by
  simp [idsOf, h]

theorem storeLE_refl (a : StoreFile) : StoreLE a a :=
  ⟨Finset.Subset.refl _, fun _ recs h => ⟨recs, h⟩⟩

theorem storeLE_trans {a b c : StoreFile} (h1 : StoreLE a b) (h2 : StoreLE b c) :
    StoreLE a c := by
  refine ⟨h1.1.trans h2.1, ?_⟩
  intro cols recs h
  obtain ⟨r2, hb⟩ := h1.2 cols recs h
  exact h2.2 cols r2 hb

theorem storeLE_absent (b : StoreFile) : StoreLE .absent b :=
  ⟨by simp [idsOf], fun _ _ h => nomatch h⟩

theorem storeLE_append (cols : List String) (recs : List Dict) (r : Dict) :
    StoreLE (.readable cols recs) (.readable cols (recs ++ [r])) := by
  constructor
  · by_cases h : "Bid ID" ∈ cols
    · rw [idsOf_readable _ _ h, idsOf_readable _ _ h, List.map_append,
        List.toFinset_append]
      exact Finset.subset_union_left
    · simp [idsOf, h]
  · intro c2 r2 hEq
    injection hEq with hc _
    exact ⟨recs ++ [r], by rw [hc]⟩

theorem rowStep_eq (cat : String) (st : ScrapeState) (row : BidRow) :
    (rowStep cat st row).store = (process_bid_row cat row st).1.store ∧
    (rowStep cat st row).seen = (process_bid_row cat row st).1.seen := by
  cases hp : process_bid_row cat row st with
  | mk s' r => cases r <;> simp [rowStep, hp]

theorem bidid_mem_rowRecord (cat : String) (row : BidRow) :
    "Bid ID" ∈ dkeys (rowRecord cat row) := by
  rw [rowRecord, fullRecord_eq_append, dkeys_append, dkeys_summary, dkeys_modal]
  decide

theorem pbr_mono (cat : String) (row : BidRow) (st : ScrapeState) :
    StoreLE st.store (process_bid_row cat row st).1.store ∧
    (storeInv st.store → storeInv (process_bid_row cat row st).1.store) := by
  by_cases h7 : row.cells.length < 7
  · rw [pbr_malformed cat row st h7]
    exact ⟨storeLE_refl _, id⟩
  by_cases hs : rowId row ∈ st.seen
  · rw [pbr_skip cat row st h7 hs]
    exact ⟨storeLE_refl _, id⟩
  have hs' : rowId row ∉ st.seen := hs
  cases ho : row.openFails with
  | true =>
    rw [pbr_openfail cat row st h7 hs' ho]
    exact ⟨storeLE_refl _, id⟩
  | false =>
    cases hst : st.store with
    | absent =>
      cases hf : row.appendFault with
      | none =>
        rw [pbr_created cat row st h7 hs' ho hst hf]
        exact ⟨storeLE_absent _, fun _ => bidid_mem_rowRecord cat row⟩
      | permission =>
        rw [pbr_escape cat row st h7 hs' ho hst (by simp [hf])]
        refine ⟨?_, ?_⟩
        · show StoreLE StoreFile.absent st.store
          rw [hst]
          exact storeLE_refl _
        · show storeInv StoreFile.absent → storeInv st.store
          rw [hst]
          exact id
      | other =>
        rw [pbr_escape cat row st h7 hs' ho hst (by simp [hf])]
        refine ⟨?_, ?_⟩
        · show StoreLE StoreFile.absent st.store
          rw [hst]
          exact storeLE_refl _
        · show storeInv StoreFile.absent → storeInv st.store
          rw [hst]
          exact id
    | corrupt =>
      rw [pbr_corrupt cat row st h7 hs' ho hst]
      exact ⟨storeLE_refl _, fun hi => hi.elim⟩
    | readable cols recs =>
      cases hf : row.appendFault with
      | none =>
        rw [pbr_appended cat row st cols recs h7 hs' ho hst hf]
        exact ⟨storeLE_append cols recs _, fun hi => hi⟩
      | permission =>
        rw [pbr_caught cat row st cols recs h7 hs' ho hst (by simp [hf])]
        exact ⟨storeLE_refl _, fun hi => hi⟩
      | other =>
        rw [pbr_caught cat row st cols recs h7 hs' ho hst (by simp [hf])]
        exact ⟨storeLE_refl _, fun hi => hi⟩

theorem rowStep_mono (cat : String) (st : ScrapeState) (row : BidRow) :
    StoreLE st.store (rowStep cat st row).store ∧
    (storeInv st.store → storeInv (rowStep cat st row).store) := by
  rw [(rowStep_eq cat st row).1]
  exact pbr_mono cat row st

theorem process_rows_cons (cat : String) (r : BidRow) (rs : List BidRow)
    (st : ScrapeState) :
    process_rows cat (r :: rs) st = process_rows cat rs (rowStep cat st r) := rfl

theorem rows_mono : ∀ (rows : List BidRow) (cat : String) (st : ScrapeState),
    StoreLE st.store (process_rows cat rows st).store ∧
    (storeInv st.store → storeInv (process_rows cat rows st).store)
  | [], _, _ => ⟨storeLE_refl _, id⟩
  | r :: rs, cat, st => by
    rw [process_rows_cons]
    have h1 := rowStep_mono cat st r
    have h3 := rows_mono rs cat (rowStep cat st r)
    exact ⟨storeLE_trans h1.1 h3.1, fun hi => h3.2 (h1.2 hi)⟩

theorem scrape_mono : ∀ (rest : List (List BidRow)) (cur : List BidRow)
    (cat : String) (st : ScrapeState),
    StoreLE st.store (scrape_bids_from_table cat cur rest st).store ∧
    (storeInv st.store → storeInv (scrape_bids_from_table cat cur rest st).store)
  | [], cur, cat, st => by
    simp only [scrape_bids_from_table, pushTrace_store]
    exact rows_mono cur cat (pushTrace st [.fetchRows cat cur.length])
  | p :: ps, cur, cat, st => by
    simp only [scrape_bids_from_table]
    have h1 := rows_mono cur cat (pushTrace st [.fetchRows cat cur.length])
    have h2 := scrape_mono ps p cat
      (pushTrace (process_rows cat cur (pushTrace st [.fetchRows cat cur.length]))
        [.advance true])
    rw [pushTrace_store] at h1 h2
    exact ⟨storeLE_trans h1.1 h2.1, fun hi => h2.2 (h1.2 hi)⟩

theorem catStep_mono (st : ScrapeState) (c : BidCategory) :
    StoreLE st.store (catStep st c).store ∧
    (storeInv st.store → storeInv (catStep st c).store) := by
  rw [catStep]
  by_cases ht : c.tabFails
  · rw [if_pos ht, pushTrace_store]
    exact ⟨storeLE_refl _, id⟩
  · rw [if_neg ht]
    cases c.pages with
    | nil => exact ⟨storeLE_refl _, id⟩
    | cons p ps => exact scrape_mono ps p c.name st

theorem cats_cons (c : BidCategory) (cs : List BidCategory) (st : ScrapeState) :
    process_bid_categories (c :: cs) st = process_bid_categories cs (catStep st c) :=
  rfl

theorem cats_mono : ∀ (cats : List BidCategory) (st : ScrapeState),
    StoreLE st.store (process_bid_categories cats st).store ∧
    (storeInv st.store → storeInv (process_bid_categories cats st).store)
  | [], _ => ⟨storeLE_refl _, id⟩
  | c :: cs, st => by
    rw [cats_cons]
    have h1 := catStep_mono st c
    have h2 := cats_mono cs (catStep st c)
    exact ⟨storeLE_trans h1.1 h2.1, fun hi => h2.2 (h1.2 hi)⟩

end StoreEvolution

section RowHelpers

theorem pbr_seen_mono (cat : String) (row : BidRow) (st : ScrapeState) :
    st.seen ⊆ (process_bid_row cat row st).1.seen := by
  by_cases h7 : row.cells.length < 7
  · rw [pbr_malformed cat row st h7]
  · by_cases hs : rowId row ∈ st.seen
    · rw [pbr_skip cat row st h7 hs]
      exact Finset.Subset.refl _
    · cases ho : row.openFails with
      | true =>
        rw [pbr_openfail cat row st h7 hs ho]
        exact Finset.Subset.refl _
      | false =>
        rw [pbr_proc cat row st h7 hs ho]
        cases append_to_excel (rowRecord cat row) st.store row.appendFault with
        | error f => exact Finset.Subset.refl _
        | ok p =>
          obtain ⟨f2, lg⟩ := p
          exact Finset.subset_insert _ _

theorem pbr_seen_bound (cat : String) (row : BidRow) (st : ScrapeState) :
    (process_bid_row cat row st).1.seen ⊆ insert (rowId row) st.seen := by
  by_cases h7 : row.cells.length < 7
  · rw [pbr_malformed cat row st h7]
    exact Finset.subset_insert _ _
  · by_cases hs : rowId row ∈ st.seen
    · rw [pbr_skip cat row st h7 hs]
      exact Finset.subset_insert _ _
    · cases ho : row.openFails with
      | true =>
        rw [pbr_openfail cat row st h7 hs ho]
        exact Finset.subset_insert _ _
      | false =>
        rw [pbr_proc cat row st h7 hs ho]
        cases append_to_excel (rowRecord cat row) st.store row.appendFault with
        | error f => exact Finset.subset_insert _ _
        | ok p =>
          obtain ⟨f2, lg⟩ := p
          exact Finset.Subset.refl _

theorem pbr_fault_store (cat : String) (row : BidRow) (st : ScrapeState)
    (h7 : ¬ row.cells.length < 7) (hs : rowId row ∉ st.seen)
    (ho : row.openFails = false) (hf : row.appendFault ≠ .none) :
    (process_bid_row cat row st).1.store = st.store := by
  cases hst : st.store with
  | absent =>
    rw [pbr_escape cat row st h7 hs ho hst hf]
    exact hst
  | corrupt =>
    rw [pbr_corrupt cat row st h7 hs ho hst]
  | readable cols recs =>
    rw [pbr_caught cat row st cols recs h7 hs ho hst hf]

theorem pbr_fault_seen_absent (cat : String) (row : BidRow) (st : ScrapeState)
    (h7 : ¬ row.cells.length < 7) (hs : rowId row ∉ st.seen)
    (ho : row.openFails = false) (hf : row.appendFault ≠ .none)
    (hst : st.store = .absent) :
    (process_bid_row cat row st).1.seen = st.seen := by
  rw [pbr_escape cat row st h7 hs ho hst hf]
  rfl

theorem pbr_fault_seen_readable (cat : String) (row : BidRow) (st : ScrapeState)
    (cols : List String) (recs : List Dict)
    (h7 : ¬ row.cells.length < 7) (hs : rowId row ∉ st.seen)
    (ho : row.openFails = false) (hf : row.appendFault ≠ .none)
    (hst : st.store = .readable cols recs) :
    (process_bid_row cat row st).1.seen = insert (rowId row) st.seen := by
  rw [pbr_caught cat row st cols recs h7 hs ho hst hf]

/-- A row carries an identifier when its first cell has a title attribute. -/
def rowHasId (row : BidRow) : Prop :=
  (cellD row.cells 0).title ≠ Option.none

instance (row : BidRow) : Decidable (rowHasId row) := by
  unfold rowHasId
  infer_instance

theorem storedIdStr_rowRecord (cat : String) (row : BidRow)
    (hid : rowHasId row) :
    storedIdStr (rowRecord cat row) = rowId row := by
  cases htitle : (cellD row.cells 0).title with
  | none => exact absurd htitle hid
  | some s =>
    rw [rowRecord, htitle, storedIdStr_fullRecord_some, rowId, htitle]
    rfl

theorem storedIdStr_rowRecord_none (cat : String) (row : BidRow)
    (hid : (cellD row.cells 0).title = Option.none) :
    storedIdStr (rowRecord cat row) = "nan" := by
  rw [rowRecord, hid, storedIdStr_fullRecord_none]

theorem idsOf_created_mem (cat : String) (row : BidRow) (hid : rowHasId row) :
    rowId row ∈
      idsOf (.readable (dkeys (rowRecord cat row)) [rowRecord cat row]) := by
  rw [idsOf_readable (dkeys (rowRecord cat row)) [rowRecord cat row]
      (bidid_mem_rowRecord cat row),
    List.map_cons, List.map_nil, storedIdStr_rowRecord cat row hid,
    List.toFinset_cons, List.toFinset_nil]
  exact Finset.mem_insert_self _ _

theorem idsOf_appended_mem (cat : String) (row : BidRow) (cols : List String)
    (recs : List Dict) (hcol : "Bid ID" ∈ cols) (hid : rowHasId row) :
    rowId row ∈ idsOf (.readable cols (recs ++ [rowRecord cat row])) := by
  rw [idsOf_readable cols (recs ++ [rowRecord cat row]) hcol, List.map_append,
    List.toFinset_append, List.map_cons, List.map_nil,
    storedIdStr_rowRecord cat row hid, List.toFinset_cons, List.toFinset_nil]
  exact Finset.mem_union_right _ (Finset.mem_insert_self _ _)

set_option maxHeartbeats 1600000 in
theorem pbr_none_id_mem (cat : String) (row : BidRow) (st : ScrapeState)
    (h7 : ¬ row.cells.length < 7) (hs : rowId row ∉ st.seen)
    (ho : row.openFails = false) (hf : row.appendFault = .none)
    (hinv : storeInv st.store) (hid : rowHasId row) :
    rowId row ∈ idsOf (process_bid_row cat row st).1.store := by
  cases hst : st.store with
  | absent =>
    have hsteq : (process_bid_row cat row st).1.store =
        .readable (dkeys (rowRecord cat row)) [rowRecord cat row] := by
      rw [pbr_created cat row st h7 hs ho hst hf]
    rw [hsteq]
    exact idsOf_created_mem cat row hid
  | corrupt =>
    rw [hst] at hinv
    exact hinv.elim
  | readable cols recs =>
    rw [hst] at hinv
    have hsteq : (process_bid_row cat row st).1.store =
        .readable cols (recs ++ [rowRecord cat row]) := by
      rw [pbr_appended cat row st cols recs h7 hs ho hst hf]
    rw [hsteq]
    exact idsOf_appended_mem cat row cols recs hinv hid

end RowHelpers

section Simulation

theorem row_sim_fault (S1 : StoreFile) (cat : String) (r : BidRow)
    (stA stB : ScrapeState)
    (hB : stB.store = S1)
    (hseen : idsOf S1 ∪ stA.seen ⊆ stB.seen)
    (hinv : storeInv stA.store)
    (hle : StoreLE (process_bid_row cat r stA).1.store S1)
    (h7 : ¬ r.cells.length < 7) (hsA : rowId r ∉ stA.seen)
    (hsB : rowId r ∉ stB.seen) (ho : r.openFails = false)
    (hf : r.appendFault ≠ .none) :
    (process_bid_row cat r stB).1.store = S1 ∧
      idsOf S1 ∪ (process_bid_row cat r stA).1.seen ⊆
        (process_bid_row cat r stB).1.seen := by
  have hBstore : (process_bid_row cat r stB).1.store = stB.store :=
    pbr_fault_store cat r stB h7 hsB ho hf
  refine ⟨by rw [hBstore, hB], ?_⟩
  have hBmono := pbr_seen_mono cat r stB
  cases hstA : stA.store with
  | corrupt =>
    rw [hstA] at hinv
    exact hinv.elim
  | absent =>
    rw [pbr_fault_seen_absent cat r stA h7 hsA ho hf hstA]
    intro x hx
    exact hBmono (hseen hx)
  | readable cols recs =>
    have hAstore : (process_bid_row cat r stA).1.store = stA.store :=
      pbr_fault_store cat r stA h7 hsA ho hf
    obtain ⟨recs2, hS1⟩ := hle.keep_readable cols recs (by rw [hAstore, hstA])
    have hBst : stB.store = .readable cols recs2 := by rw [hB, hS1]
    rw [pbr_fault_seen_readable cat r stA cols recs h7 hsA ho hf hstA,
      pbr_fault_seen_readable cat r stB cols recs2 h7 hsB ho hf hBst]
    intro x hx
    rcases Finset.mem_union.mp hx with hx | hx
    · exact Finset.mem_insert_of_mem (hseen (Finset.mem_union_left _ hx))
    · rcases Finset.mem_insert.mp hx with hx | hx
      · exact hx.symm ▸ Finset.mem_insert_self (rowId r) stB.seen
      · exact Finset.mem_insert_of_mem (hseen (Finset.mem_union_right _ hx))

theorem row_sim (S1 : StoreFile) (cat : String) (r : BidRow)
    (stA stB : ScrapeState)
    (hB : stB.store = S1)
    (hseen : idsOf S1 ∪ stA.seen ⊆ stB.seen)
    (hinv : storeInv stA.store)
    (hle : StoreLE (process_bid_row cat r stA).1.store S1)
    (hid : rowHasId r) :
    (process_bid_row cat r stB).1.store = S1 ∧
      idsOf S1 ∪ (process_bid_row cat r stA).1.seen ⊆
        (process_bid_row cat r stB).1.seen := by
  by_cases h7 : r.cells.length < 7
  · rw [pbr_malformed cat r stA h7, pbr_malformed cat r stB h7]
    exact ⟨hB, hseen⟩
  by_cases hsB : rowId r ∈ stB.seen
  · rw [pbr_skip cat r stB h7 hsB]
    refine ⟨hB, ?_⟩
    have hbound := pbr_seen_bound cat r stA
    intro x hx
    rcases Finset.mem_union.mp hx with hx | hx
    · exact hseen (Finset.mem_union_left _ hx)
    · rcases Finset.mem_insert.mp (hbound hx) with hx2 | hx2
      · exact hx2.symm ▸ hsB
      · exact hseen (Finset.mem_union_right _ hx2)
  have hsA : rowId r ∉ stA.seen := fun h =>
    hsB (hseen (Finset.mem_union_right _ h))
  have hidS1 : rowId r ∉ idsOf S1 := fun h =>
    hsB (hseen (Finset.mem_union_left _ h))
  cases ho : r.openFails with
  | true =>
    rw [pbr_openfail cat r stA h7 hsA ho, pbr_openfail cat r stB h7 hsB ho]
    exact ⟨hB, hseen⟩
  | false =>
    cases hf : r.appendFault with
    | none =>
      have hmem := pbr_none_id_mem cat r stA h7 hsA ho hf hinv hid
      exact absurd (hle.ids_le hmem) hidS1
    | permission =>
      exact row_sim_fault S1 cat r stA stB hB hseen hinv hle h7 hsA hsB ho
        (by simp [hf])
    | other =>
      exact row_sim_fault S1 cat r stA stB hB hseen hinv hle h7 hsA hsB ho
        (by simp [hf])

theorem rows_sim : ∀ (rs : List BidRow) (cat : String) (S1 : StoreFile)
    (stA stB : ScrapeState),
    stB.store = S1 → idsOf S1 ∪ stA.seen ⊆ stB.seen → storeInv stA.store →
    StoreLE (process_rows cat rs stA).store S1 →
    (∀ r ∈ rs, rowHasId r) →
    (process_rows cat rs stB).store = S1 ∧
      idsOf S1 ∪ (process_rows cat rs stA).seen ⊆ (process_rows cat rs stB).seen
  | [], _, _, _, _, hB, hseen, _, _, _ => ⟨hB, hseen⟩
  | r :: rs, cat, S1, stA, stB, hB, hseen, hinv, hle, hall => by
    have hle1 : StoreLE (process_bid_row cat r stA).1.store S1 := by
      have hmono := rows_mono rs cat (rowStep cat stA r)
      have h2 := storeLE_trans hmono.1 hle
      rw [(rowStep_eq cat stA r).1] at h2
      exact h2
    have hrow := row_sim S1 cat r stA stB hB hseen hinv hle1
      (hall r (List.mem_cons_self r rs))
    have hinv2 : storeInv (rowStep cat stA r).store := (rowStep_mono cat stA r).2 hinv
    have hB2 : (rowStep cat stB r).store = S1 := by
      rw [(rowStep_eq cat stB r).1]
      exact hrow.1
    have hseen2 : idsOf S1 ∪ (rowStep cat stA r).seen ⊆ (rowStep cat stB r).seen := by
      rw [(rowStep_eq cat stA r).2, (rowStep_eq cat stB r).2]
      exact hrow.2
    exact rows_sim rs cat S1 (rowStep cat stA r) (rowStep cat stB r) hB2 hseen2
      hinv2 hle (fun r2 h2 => hall r2 (List.mem_cons_of_mem r h2))

theorem scrape_sim : ∀ (rest : List (List BidRow)) (cur : List BidRow)
    (cat : String) (S1 : StoreFile) (stA stB : ScrapeState),
    stB.store = S1 → idsOf S1 ∪ stA.seen ⊆ stB.seen → storeInv stA.store →
    StoreLE (scrape_bids_from_table cat cur rest stA).store S1 →
    (∀ r ∈ cur, rowHasId r) → (∀ p ∈ rest, ∀ r ∈ p, rowHasId r) →
    (scrape_bids_from_table cat cur rest stB).store = S1 ∧
      idsOf S1 ∪ (scrape_bids_from_table cat cur rest stA).seen ⊆
        (scrape_bids_from_table cat cur rest stB).seen
  | [], cur, cat, S1, stA, stB, hB, hseen, hinv, hle, hcur, _ =>
    rows_sim cur cat S1 (pushTrace stA [.fetchRows cat cur.length])
      (pushTrace stB [.fetchRows cat cur.length]) hB hseen hinv hle hcur
  | p :: ps, cur, cat, S1, stA, stB, hB, hseen, hinv, hle, hcur, hrest => by
    have hmono := scrape_mono ps p cat
      (pushTrace (process_rows cat cur (pushTrace stA [.fetchRows cat cur.length]))
        [.advance true])
    have hleRows : StoreLE
        (process_rows cat cur (pushTrace stA [.fetchRows cat cur.length])).store
        S1 :=
      storeLE_trans hmono.1 hle
    have hrows := rows_sim cur cat S1 (pushTrace stA [.fetchRows cat cur.length])
      (pushTrace stB [.fetchRows cat cur.length]) hB hseen hinv hleRows hcur
    exact scrape_sim ps p cat S1
      (pushTrace (process_rows cat cur (pushTrace stA [.fetchRows cat cur.length]))
        [.advance true])
      (pushTrace (process_rows cat cur (pushTrace stB [.fetchRows cat cur.length]))
        [.advance true])
      hrows.1 hrows.2 ((rows_mono cur cat _).2 hinv) hle
      (hrest p (List.mem_cons_self p ps))
      (fun q hq => hrest q (List.mem_cons_of_mem p hq))

theorem catStep_sim (c : BidCategory) (S1 : StoreFile) (stA stB : ScrapeState)
    (hB : stB.store = S1) (hseen : idsOf S1 ∪ stA.seen ⊆ stB.seen)
    (hinv : storeInv stA.store)
    (hle : StoreLE (catStep stA c).store S1)
    (hc : ∀ p ∈ c.pages, ∀ r ∈ p, rowHasId r) :
    (catStep stB c).store = S1 ∧
      idsOf S1 ∪ (catStep stA c).seen ⊆ (catStep stB c).seen := by
  by_cases ht : c.tabFails
  · have hA : catStep stA c = pushTrace stA [.catError c.name] := by
      rw [catStep, if_pos ht]
    have hBr : catStep stB c = pushTrace stB [.catError c.name] := by
      rw [catStep, if_pos ht]
    rw [hA, hBr]
    exact ⟨hB, hseen⟩
  · cases hp : c.pages with
    | nil =>
      have hA : catStep stA c = pushTrace stA [.catError c.name] := by
        rw [catStep, if_neg ht, hp]
      have hBr : catStep stB c = pushTrace stB [.catError c.name] := by
        rw [catStep, if_neg ht, hp]
      rw [hA, hBr]
      exact ⟨hB, hseen⟩
    | cons p ps =>
      have hA : catStep stA c = scrape_bids_from_table c.name p ps stA := by
        rw [catStep, if_neg ht, hp]
      have hBr : catStep stB c = scrape_bids_from_table c.name p ps stB := by
        rw [catStep, if_neg ht, hp]
      rw [hA] at hle
      rw [hA, hBr]
      exact scrape_sim ps p c.name S1 stA stB hB hseen hinv hle
        (fun r hr => hc p (by rw [hp]; exact List.mem_cons_self p ps) r hr)
        (fun q hq => hc q (by rw [hp]; exact List.mem_cons_of_mem p hq))

theorem cats_sim : ∀ (cats : List BidCategory) (S1 : StoreFile)
    (stA stB : ScrapeState),
    stB.store = S1 → idsOf S1 ∪ stA.seen ⊆ stB.seen → storeInv stA.store →
    StoreLE (process_bid_categories cats stA).store S1 →
    (∀ c ∈ cats, ∀ p ∈ c.pages, ∀ r ∈ p, rowHasId r) →
    (process_bid_categories cats stB).store = S1 ∧
      idsOf S1 ∪ (process_bid_categories cats stA).seen ⊆
        (process_bid_categories cats stB).seen
  | [], _, _, _, hB, hseen, _, _, _ => ⟨hB, hseen⟩
  | c :: cs, S1, stA, stB, hB, hseen, hinv, hle, hall => by
    have hleC : StoreLE (catStep stA c).store S1 :=
      storeLE_trans (cats_mono cs (catStep stA c)).1 hle
    have hcat := catStep_sim c S1 stA stB hB hseen hinv hleC
      (hall c (List.mem_cons_self c cs))
    exact cats_sim cs S1 (catStep stA c) (catStep stB c) hcat.1 hcat.2
      ((catStep_mono stA c).2 hinv) hle
      (fun c2 h2 => hall c2 (List.mem_cons_of_mem c h2))

theorem load_eq_idsOf (f : StoreFile) : (load_processed_bid_ids f).1 = idsOf f := by
  cases f with
  | absent => rfl
  | corrupt => rfl
  | readable cols recs =>
    by_cases h : "Bid ID" ∈ cols
    · simp [load_processed_bid_ids, idsOf, h]
    · simp [load_processed_bid_ids, idsOf, h]

end Simulation

section TraceShape

/-- Events a row iteration can emit (never pagination or fetch events). -/
def rowEvent : Event → Bool
  | .logSkip _ => true
  | .openDetail => true
  | .appendCall => true
  | .logSuccess _ => true
  | .rowError => true
  | _ => false

theorem pushTrace_pushTrace (st : ScrapeState) (a b : List Event) :
    pushTrace (pushTrace st a) b = pushTrace st (a ++ b) := by
  simp [pushTrace]

theorem pbr_trace_suffix (cat : String) (row : BidRow) (st : ScrapeState) :
    ∃ es, (process_bid_row cat row st).1.trace = st.trace ++ es ∧
      ∀ e ∈ es, rowEvent e = true := by
  by_cases h7 : row.cells.length < 7
  · rw [pbr_malformed cat row st h7]
    exact ⟨[], (List.append_nil st.trace).symm, by simp⟩
  by_cases hs : rowId row ∈ st.seen
  · rw [pbr_skip cat row st h7 hs]
    exact ⟨[.logSkip (rowId row)], rfl, by simp [rowEvent]⟩
  cases ho : row.openFails with
  | true =>
    rw [pbr_openfail cat row st h7 hs ho]
    exact ⟨[.openDetail], rfl, by simp [rowEvent]⟩
  | false =>
    rw [pbr_proc cat row st h7 hs ho]
    cases append_to_excel (rowRecord cat row) st.store row.appendFault with
    | error f => exact ⟨[.openDetail, .appendCall], rfl, by simp [rowEvent]⟩
    | ok p =>
      obtain ⟨f2, lg⟩ := p
      exact ⟨[.openDetail, .appendCall, .logSuccess (rowId row)], rfl,
        by simp [rowEvent]⟩

theorem rowStep_trace_suffix (cat : String) (st : ScrapeState) (row : BidRow) :
    ∃ es, (rowStep cat st row).trace = st.trace ++ es ∧
      ∀ e ∈ es, rowEvent e = true := by
  obtain ⟨es, he, hre⟩ := pbr_trace_suffix cat row st
  cases hp : process_bid_row cat row st with
  | mk s' b =>
    rw [hp] at he
    simp only at he
    cases b with
    | false =>
      refine ⟨es, ?_, hre⟩
      rw [rowStep, hp]
      exact he
    | true =>
      refine ⟨es ++ [.rowError], ?_, ?_⟩
      · rw [rowStep, hp]
        show (pushTrace s' [Event.rowError]).trace = _
        rw [pushTrace_trace, he, List.append_assoc]
      · intro e hmem
        rcases List.mem_append.mp hmem with h | h
        · exact hre e h
        · have : e = Event.rowError := by simpa using h
          rw [this]
          rfl

theorem rows_trace_suffix : ∀ (rows : List BidRow) (cat : String) (st : ScrapeState),
    ∃ es, (process_rows cat rows st).trace = st.trace ++ es ∧
      ∀ e ∈ es, rowEvent e = true
  | [], _, st => ⟨[], (List.append_nil st.trace).symm, by simp⟩
  | r :: rs, cat, st => by
    obtain ⟨es1, he1, hre1⟩ := rowStep_trace_suffix cat st r
    obtain ⟨es2, he2, hre2⟩ := rows_trace_suffix rs cat (rowStep cat st r)
    rw [process_rows_cons]
    refine ⟨es1 ++ es2, ?_, ?_⟩
    · rw [he2, he1, List.append_assoc]
    · intro e hmem
      rcases List.mem_append.mp hmem with h | h
      · exact hre1 e h
      · exact hre2 e h

theorem pbr_indep (cat : String) (row : BidRow) (s t : ScrapeState)
    (hst : s.store = t.store) (hsn : s.seen = t.seen) :
    (process_bid_row cat row s).1.store = (process_bid_row cat row t).1.store ∧
    (process_bid_row cat row s).1.seen = (process_bid_row cat row t).1.seen ∧
    (process_bid_row cat row s).2 = (process_bid_row cat row t).2 := by
  by_cases h7 : row.cells.length < 7
  · rw [pbr_malformed cat row s h7, pbr_malformed cat row t h7]
    exact ⟨hst, hsn, rfl⟩
  by_cases hs : rowId row ∈ s.seen
  · have ht : rowId row ∈ t.seen := hsn ▸ hs
    rw [pbr_skip cat row s h7 hs, pbr_skip cat row t h7 ht]
    exact ⟨hst, hsn, rfl⟩
  have hs' : rowId row ∉ s.seen := hs
  have ht' : rowId row ∉ t.seen := by
    rw [← hsn]
    exact hs'
  cases ho : row.openFails with
  | true =>
    rw [pbr_openfail cat row s h7 hs' ho, pbr_openfail cat row t h7 ht' ho]
    exact ⟨hst, hsn, rfl⟩
  | false =>
    rw [pbr_proc cat row s h7 hs' ho, pbr_proc cat row t h7 ht' ho, hst]
    cases append_to_excel (rowRecord cat row) t.store row.appendFault with
    | error f => exact ⟨hst, hsn, rfl⟩
    | ok p =>
      obtain ⟨f2, lg⟩ := p
      exact ⟨rfl, by rw [hsn], rfl⟩

theorem rowStep_indep (cat : String) (s t : ScrapeState) (row : BidRow)
    (hst : s.store = t.store) (hsn : s.seen = t.seen) :
    (rowStep cat s row).store = (rowStep cat t row).store ∧
    (rowStep cat s row).seen = (rowStep cat t row).seen := by
  have h := pbr_indep cat row s t hst hsn
  refine ⟨?_, ?_⟩
  · rw [(rowStep_eq cat s row).1, (rowStep_eq cat t row).1]
    exact h.1
  · rw [(rowStep_eq cat s row).2, (rowStep_eq cat t row).2]
    exact h.2.1

theorem rows_indep : ∀ (rows : List BidRow) (cat : String) (s t : ScrapeState),
    s.store = t.store → s.seen = t.seen →
    (process_rows cat rows s).store = (process_rows cat rows t).store ∧
    (process_rows cat rows s).seen = (process_rows cat rows t).seen
  | [], _, _, _, hst, hsn => ⟨hst, hsn⟩
  | r :: rs, cat, s, t, hst, hsn => by
    rw [process_rows_cons, process_rows_cons]
    have h := rowStep_indep cat s t r hst hsn
    exact rows_indep rs cat (rowStep cat s r) (rowStep cat t r) h.1 h.2

theorem rowStep_openfail (cat : String) (st : ScrapeState) (row : BidRow)
    (h7 : ¬ row.cells.length < 7) (hs : rowId row ∉ st.seen)
    (ho : row.openFails = true) :
    rowStep cat st row = pushTrace st [.openDetail, .rowError] := by
  rw [rowStep, pbr_openfail cat row st h7 hs ho]
  show pushTrace (pushTrace st [Event.openDetail]) [Event.rowError] = _
  rw [pushTrace_pushTrace]
  rfl

theorem process_rows_append (cat : String) (l1 l2 : List BidRow) (st : ScrapeState) :
    process_rows cat (l1 ++ l2) st = process_rows cat l2 (process_rows cat l1 st) := by
  simp [process_rows, List.foldl_append]

/-- A row whose modal open fails contributes nothing to the store or seen
set: the rest of the page is processed exactly as if the row were absent,
and the row fault is logged. -/
theorem rows_isolate (cat : String) (rBad : BidRow) (rs : List BidRow)
    (st : ScrapeState)
    (h7 : ¬ rBad.cells.length < 7) (hs : rowId rBad ∉ st.seen)
    (ho : rBad.openFails = true) :
    (process_rows cat (rBad :: rs) st).store = (process_rows cat rs st).store ∧
    (process_rows cat (rBad :: rs) st).seen = (process_rows cat rs st).seen ∧
    Event.rowError ∈ (process_rows cat (rBad :: rs) st).trace := by
  rw [process_rows_cons, rowStep_openfail cat st rBad h7 hs ho]
  have hind := rows_indep rs cat (pushTrace st [.openDetail, .rowError]) st rfl rfl
  refine ⟨hind.1, hind.2, ?_⟩
  obtain ⟨es, he, _⟩ := rows_trace_suffix rs cat
    (pushTrace st [.openDetail, .rowError])
  rw [he, pushTrace_trace]
  simp

end TraceShape

section PageLoop

theorem rowEvent_not_fetch (e : Event) (h : rowEvent e = true) : isFetch e = false := by
  cases e <;> simp_all [rowEvent, isFetch]

theorem rowEvent_not_advance (e : Event) (h : rowEvent e = true) (b : Bool) :
    e ≠ .advance b := by
  cases e <;> simp_all [rowEvent]

/-- The page loop consults `navigate_to_next_page` after each page: a
`false` answer stops it, a `true` answer continues on the advanced
navigation state. -/
theorem scrape_uses_navigate (cat : String) (cur : List BidRow)
    (rest : List (List BidRow)) (st : ScrapeState) :
    scrape_bids_from_table cat cur rest st =
      match navigate_to_next_page ⟨cur, rest⟩ with
      | (false, _) =>
        pushTrace (process_rows cat cur (pushTrace st [.fetchRows cat cur.length]))
          [.advance false]
      | (true, nav) =>
        scrape_bids_from_table cat nav.current nav.rest
          (pushTrace (process_rows cat cur (pushTrace st [.fetchRows cat cur.length]))
            [.advance true]) := by
  cases rest <;> rfl

theorem scrape_trace_shape : ∀ (rest : List (List BidRow)) (cur : List BidRow)
    (cat : String) (st : ScrapeState),
    ∃ t, (scrape_bids_from_table cat cur rest st).trace =
        st.trace ++ t ++ [.advance false] ∧
      Event.advance false ∉ t ∧
      (t.filter isFetch).length = rest.length + 1
  | [], cur, cat, st => by
    obtain ⟨es, he, hre⟩ :=
      rows_trace_suffix cur cat (pushTrace st [.fetchRows cat cur.length])
    refine ⟨.fetchRows cat cur.length :: es, ?_, ?_, ?_⟩
    · show (pushTrace (process_rows cat cur
          (pushTrace st [.fetchRows cat cur.length])) [.advance false]).trace = _
      rw [pushTrace_trace, he, pushTrace_trace]
      simp
    · intro hmem
      rcases List.mem_cons.mp hmem with h | h
      · exact Event.noConfusion h
      · exact rowEvent_not_advance _ (hre _ h) false rfl
    · rw [List.filter_cons_of_pos (by rfl)]
      have hnil : es.filter isFetch = [] := by
        rw [List.filter_eq_nil_iff]
        intro e hmem
        rw [rowEvent_not_fetch e (hre e hmem)]
        simp
      rw [hnil]
      rfl
  | p :: ps, cur, cat, st => by
    obtain ⟨es, he, hre⟩ :=
      rows_trace_suffix cur cat (pushTrace st [.fetchRows cat cur.length])
    obtain ⟨t2, ht2, hnf2, hcount2⟩ := scrape_trace_shape ps p cat
      (pushTrace (process_rows cat cur (pushTrace st [.fetchRows cat cur.length]))
        [.advance true])
    refine ⟨.fetchRows cat cur.length :: (es ++ .advance true :: t2), ?_, ?_, ?_⟩
    · show (scrape_bids_from_table cat p ps
          (pushTrace (process_rows cat cur
            (pushTrace st [.fetchRows cat cur.length])) [.advance true])).trace = _
      rw [ht2, pushTrace_trace, he, pushTrace_trace]
      simp
    · intro hmem
      rcases List.mem_cons.mp hmem with h | h
      · exact Event.noConfusion h
      rcases List.mem_append.mp h with h | h
      · exact rowEvent_not_advance _ (hre _ h) false rfl
      rcases List.mem_cons.mp h with h | h
      · simp at h
      · exact hnf2 h
    · rw [List.filter_cons_of_pos (by rfl)]
      have hnil : es.filter isFetch = [] := by
        rw [List.filter_eq_nil_iff]
        intro e hmem
        rw [rowEvent_not_fetch e (hre e hmem)]
        simp
      rw [List.filter_append, hnil, List.filter_cons_of_neg (by simp [isFetch])]
      simp only [List.nil_append, List.length_cons]
      rw [hcount2]

end PageLoop

section EndVariant

theorem end_step_fault (status : String) (acc : List Dict × List Event)
    (r : EndRow) (h6 : ¬ r.cells.length < 6) (hf : r.rowFails = true) :
    end_row_step status acc r = (acc.1, acc.2 ++ [.rowError, .recoveryClose]) := by
  simp [end_row_step, h6, hf]

theorem end_rows_cons (status : String) (r : EndRow) (rs : List EndRow)
    (acc : List Dict × List Event) :
    process_bids_for_status status (r :: rs) acc =
      process_bids_for_status status rs (end_row_step status acc r) := rfl

theorem end_rows_records_indep :
    ∀ (rows : List EndRow) (status : String) (a : List Dict) (t t2 : List Event),
    (process_bids_for_status status rows (a, t)).1 =
      (process_bids_for_status status rows (a, t2)).1
  | [], _, _, _, _ => rfl
  | r :: rs, status, a, t, t2 => by
    rw [end_rows_cons, end_rows_cons]
    by_cases h6 : r.cells.length < 6
    · rw [end_row_step, if_pos h6, end_row_step, if_pos h6]
      exact end_rows_records_indep rs status a t t2
    · by_cases hf : r.rowFails = true
      · rw [end_step_fault status (a, t) r h6 hf, end_step_fault status (a, t2) r h6 hf]
        exact end_rows_records_indep rs status a _ _
      · have hf' : r.rowFails = false := by simpa using hf
        rw [end_row_step, if_neg h6, end_row_step, if_neg h6, hf']
        simp only [Bool.false_eq_true, if_false]
        exact end_rows_records_indep rs status _ _ _

theorem end_rows_trace_suffix :
    ∀ (rows : List EndRow) (status : String) (acc : List Dict × List Event),
    ∃ es, (process_bids_for_status status rows acc).2 = acc.2 ++ es
  | [], _, acc => ⟨[], (List.append_nil acc.2).symm⟩
  | r :: rs, status, acc => by
    rw [end_rows_cons]
    by_cases h6 : r.cells.length < 6
    · rw [end_row_step, if_pos h6]
      exact end_rows_trace_suffix rs status acc
    · by_cases hf : r.rowFails = true
      · rw [end_step_fault status acc r h6 hf]
        obtain ⟨es, he⟩ := end_rows_trace_suffix rs status
          (acc.1, acc.2 ++ [.rowError, .recoveryClose])
        exact ⟨[.rowError, .recoveryClose] ++ es, by rw [he]; simp⟩
      · have hf' : r.rowFails = false := by simpa using hf
        rw [end_row_step, if_neg h6, hf']
        simp only [Bool.false_eq_true, if_false]
        obtain ⟨es, he⟩ := end_rows_trace_suffix rs status
          (acc.1 ++ [dmerge (end_bid_data status r.cells) r.detail], acc.2)
        exact ⟨es, he⟩

/-- In end.py a failing row appends nothing to the record list, the
recovery close is attempted, and the remaining rows are unaffected. -/
theorem end_isolate (status : String) (r : EndRow) (rest : List EndRow)
    (acc : List Dict × List Event)
    (h6 : ¬ r.cells.length < 6) (hf : r.rowFails = true) :
    (process_bids_for_status status (r :: rest) acc).1 =
      (process_bids_for_status status rest acc).1 ∧
    Event.recoveryClose ∈ (process_bids_for_status status (r :: rest) acc).2 := by
  rw [end_rows_cons, end_step_fault status acc r h6 hf]
  constructor
  · cases acc with
    | mk a t => exact end_rows_records_indep rest status a _ _
  · obtain ⟨es, he⟩ := end_rows_trace_suffix rest status
      (acc.1, acc.2 ++ [.rowError, .recoveryClose])
    rw [he]
    simp

end EndVariant

section Fixtures

/-- Seven cells with the given first-cell title attribute. -/
def exCells (id : Option String) : List Cell :=
  [⟨id, "t0"⟩, ⟨Option.none, "cn"⟩, ⟨Option.none, "ti"⟩, ⟨Option.none, "od"⟩,
   ⟨Option.none, "dl"⟩, ⟨Option.none, "ag"⟩, ⟨Option.none, "un"⟩]

/-- A modal with every field absent and no documents. -/
def exModal : ModalContent :=
  ⟨Option.none, Option.none, Option.none, Option.none, []⟩

/-- A well-formed row that hits a `PermissionError` on append. -/
def c1row : BidRow := ⟨exCells (some "B1"), exModal, false, .permission⟩

/-- A state whose store already exists with only the id column. -/
def c1st : ScrapeState := ⟨.readable ["Bid ID"] [], ∅, []⟩

/-- A well-formed row whose modal open raises. -/
def c3bad : BidRow := ⟨exCells (some "X1"), exModal, true, .none⟩

/-- A fault-free well-formed row. -/
def c3good : BidRow := ⟨exCells (some "G1"), exModal, false, .none⟩

/-- The fresh-start state: no store, empty seen set. -/
def c3st : ScrapeState := ⟨.absent, ∅, []⟩

/-- A row whose id is already in the seen set of `c4st`. -/
def c4row : BidRow := ⟨exCells (some "B1"), exModal, false, .none⟩

/-- A state that has already seen id `B1`. -/
def c4st : ScrapeState := ⟨.absent, {"B1"}, []⟩

/-- A malformed row: only one cell. -/
def c5row : BidRow := ⟨[⟨some "M1", "only"⟩], exModal, false, .none⟩

/-- A malformed end.py row: only two cells. -/
def c5endRow : EndRow := ⟨[⟨Option.none, "a"⟩, ⟨Option.none, "b"⟩], [], false⟩

/-- A one-field record. -/
def c6rec : Dict := [("Bid ID", .vStr "B1")]

/-- A well-formed row hitting a write fault while the store is absent. -/
def c6row : BidRow := ⟨exCells (some "E1"), exModal, false, .other⟩

/-- A failing end.py row with enough columns. -/
def c3endRow : EndRow :=
  ⟨[⟨Option.none, "a"⟩, ⟨Option.none, "b"⟩, ⟨Option.none, "c"⟩, ⟨Option.none, "d"⟩,
    ⟨Option.none, "e"⟩, ⟨Option.none, "f"⟩], [], true⟩

/-- A well-formed, fault-free row with no title attribute on its id cell. -/
def c10row : BidRow := ⟨exCells Option.none, exModal, false, .none⟩

/-- One category whose only row is identifier-less. -/
def c2cats : List BidCategory := [⟨"Open", false, [[c10row]]⟩]

/-- A fault-free row carrying the identifier `A1`. -/
def c2wRow : BidRow := ⟨exCells (some "A1"), exModal, false, .none⟩

/-- One category whose only row carries an identifier. -/
def c2wcats : List BidCategory := [⟨"Open", false, [[c2wRow]]⟩]

/-- A second one-category data set with an identifier-less row. -/
def c10cats : List BidCategory := [⟨"Recently Closed", false, [[c10row]]⟩]

end Fixtures

section Claims

/-- Claim C1, counterexample: a row whose append hits a `PermissionError`
(store exists, file locked).  The append does not succeed — the store is
unchanged and holds zero records — yet the row's identifier `B1` is added
to the seen set anyway, contradicting the claim that the identifier is
added to the SeenIdentifierSet only if the append succeeds. -/
theorem claim1_counterexample :
    (process_bid_row "Open" c1row c1st).1.store = c1st.store ∧
    numRecords (process_bid_row "Open" c1row c1st).1.store = 0 ∧
    "B1" ∈ (process_bid_row "Open" c1row c1st).1.seen ∧
    (process_bid_row "Open" c1row c1st).2 = false := by
  decide

/-- Claim C1 (amended): whether a failed append marks the row's identifier
seen depends on the path.  When the store file already exists, the fault
is swallowed inside `append_to_excel` and the identifier is added to the
in-run SeenIdentifierSet anyway; only when the fault strikes on the
store-creation path (no store file yet) does the escaping exception abort
the row before the seen-set update, so the identifier is not marked seen
there, as the original claim says.  In every failure case the store is
unchanged, so the identifier is absent from the seen set a future run
reconstructs from the store, and the item remains eligible for retry on a
future run — and within the current run only in the creation-path case. -/
theorem claim1_amended_seen_update_by_path (cat : String) (row : BidRow)
    (st : ScrapeState)
    (h7 : ¬ row.cells.length < 7)
    (hs : rowId row ∉ st.seen)
    (ho : row.openFails = false)
    (hf : row.appendFault ≠ .none) :
    (st.store ≠ .absent →
      (process_bid_row cat row st).1.seen = insert (rowId row) st.seen) ∧
    (st.store = .absent →
      (process_bid_row cat row st).1.seen = st.seen ∧
      (process_bid_row cat row st).2 = true) ∧
    (process_bid_row cat row st).1.store = st.store ∧
    (load_processed_bid_ids (process_bid_row cat row st).1.store).1 =
      (load_processed_bid_ids st.store).1 := by
  refine ⟨?_, ?_, pbr_fault_store cat row st h7 hs ho hf, ?_⟩
  · intro hne
    cases hst : st.store with
    | absent => exact absurd hst hne
    | corrupt =>
      rw [pbr_corrupt cat row st h7 hs ho hst]
    | readable cols recs =>
      exact pbr_fault_seen_readable cat row st cols recs h7 hs ho hf hst
  · intro hst
    refine ⟨pbr_fault_seen_absent cat row st h7 hs ho hf hst, ?_⟩
    rw [pbr_escape cat row st h7 hs ho hst hf]
  · rw [pbr_fault_store cat row st h7 hs ho hf]

/-- Claim C1 (amended), witness: the locked existing store marks `B1` seen
despite the failed append, while the creation-path fault aborts the row
with the seen set and store untouched. -/
theorem claim1_amended_witness :
    (process_bid_row "Open" c1row c1st).1.seen = insert (rowId c1row) c1st.seen ∧
    ((process_bid_row "Open" c6row c3st).1.seen = c3st.seen ∧
      (process_bid_row "Open" c6row c3st).2 = true) ∧
    (process_bid_row "Open" c6row c3st).1.store = c3st.store :=
  ⟨(claim1_amended_seen_update_by_path "Open" c1row c1st (by decide) (by decide)
      rfl (by decide)).1 (by decide),
    (claim1_amended_seen_update_by_path "Open" c6row c3st (by decide) (by decide)
      rfl (by decide)).2.1 rfl,
    (claim1_amended_seen_update_by_path "Open" c6row c3st (by decide) (by decide)
      rfl (by decide)).2.2.1⟩

/-- Claim C2, counterexample: one category with one identifier-less row.
The first run records the row (in-run dedup key `str(None) = None`), but
the stored null identifier reads back through the Excel round-trip as
`nan`, so the second run does not find the row's key in its loaded seen
set, re-processes it, and appends a duplicate — the second run appends a
new record and the final store is not identical to the first run's. -/
theorem claim2_counterexample :
    numRecords (runScraper c2cats .absent).store = 1 ∧
    numRecords (runScraper c2cats (runScraper c2cats .absent).store).store = 2 := by
  decide

/-- Claim C2 (amended): running the scraper twice over an unchanged remote
data set in which every row carries an identifier (a non-null title
attribute on its id cell) — any categories, pages and fault pattern — with
the first run starting from no prior store and the second run loading its
seen set from the store the first run produced, appends zero new records
on the second run and leaves the final store identical to the first run's
store.  (A row with a null identifier breaks this: its stored id reads
back as `nan` while the in-run key is `None`, so each later run re-appends
it.) -/
theorem claim2_amended_second_run_idempotent (cats : List BidCategory)
    (hall : ∀ c ∈ cats, ∀ p ∈ c.pages, ∀ r ∈ p, rowHasId r) :
    (runScraper cats (runScraper cats .absent).store).store =
      (runScraper cats .absent).store ∧
    numRecords (runScraper cats (runScraper cats .absent).store).store =
      numRecords (runScraper cats .absent).store := by
  have hsim := cats_sim cats (runScraper cats .absent).store
    ⟨.absent, (load_processed_bid_ids .absent).1, []⟩
    ⟨(runScraper cats .absent).store,
      (load_processed_bid_ids (runScraper cats .absent).store).1, []⟩
    rfl ?_ trivial (storeLE_refl _) hall
  · exact ⟨hsim.1, congrArg numRecords hsim.1⟩
  · show idsOf (runScraper cats StoreFile.absent).store ∪
      (load_processed_bid_ids StoreFile.absent).1 ⊆
        (load_processed_bid_ids (runScraper cats StoreFile.absent).store).1
    have hload : (load_processed_bid_ids StoreFile.absent).1 = ∅ := rfl
    rw [hload, Finset.union_empty, load_eq_idsOf]

/-- Claim C2 (amended), witness at a concrete one-category data set whose
single row carries the identifier `A1`. -/
theorem claim2_amended_witness :
    (runScraper c2wcats (runScraper c2wcats .absent).store).store =
      (runScraper c2wcats .absent).store ∧
    numRecords (runScraper c2wcats (runScraper c2wcats .absent).store).store =
      numRecords (runScraper c2wcats .absent).store :=
  claim2_amended_second_run_idempotent c2wcats (by decide)

/-- Claim C4: when a row's identifier is already in the seen set, the
orchestrator only logs a skip: the returned state differs from the input
state by exactly the skip-log event, so the store and seen set are
untouched, and neither a modal open nor an append call is among the events
this row produced. -/
theorem claim4_dedup_short_circuit (cat : String) (row : BidRow)
    (st : ScrapeState)
    (h7 : ¬ row.cells.length < 7) (hs : rowId row ∈ st.seen) :
    process_bid_row cat row st = (pushTrace st [.logSkip (rowId row)], false) ∧
    (process_bid_row cat row st).1.store = st.store ∧
    (process_bid_row cat row st).1.seen = st.seen ∧
    Event.openDetail ∉ ((process_bid_row cat row st).1.trace.drop st.trace.length) ∧
    Event.appendCall ∉ ((process_bid_row cat row st).1.trace.drop st.trace.length) := by
  have h := pbr_skip cat row st h7 hs
  refine ⟨h, by rw [h]; rfl, by rw [h]; rfl, ?_, ?_⟩ <;>
    · rw [h]
      show _ ∉ (st.trace ++ [Event.logSkip (rowId row)]).drop st.trace.length
      rw [List.drop_left]
      simp

/-- Claim C4, witness: the already-seen id `B1` is skipped with only a log
event. -/
theorem claim4_witness :
    process_bid_row "Open" c4row c4st =
      (pushTrace c4st [.logSkip (rowId c4row)], false) ∧
    (process_bid_row "Open" c4row c4st).1.store = c4st.store ∧
    (process_bid_row "Open" c4row c4st).1.seen = c4st.seen ∧
    Event.openDetail ∉
      ((process_bid_row "Open" c4row c4st).1.trace.drop c4st.trace.length) ∧
    Event.appendCall ∉
      ((process_bid_row "Open" c4row c4st).1.trace.drop c4st.trace.length) :=
  claim4_dedup_short_circuit "Open" c4row c4st (by decide) (by decide)

/-- Claim C5: a row with fewer cells than the expected schema (7 in
scraper.py, 6 in end.py) is skipped silently: the state is returned
entirely unchanged — no record, no seen-set entry, no log or trace event
of any kind. -/
theorem claim5_malformed_row_silent (cat : String) (row : BidRow)
    (st : ScrapeState) (h : row.cells.length < 7) :
    process_bid_row cat row st = (st, false) ∧
    (∀ (status : String) (r : EndRow) (acc : List Dict × List Event),
      r.cells.length < 6 → end_row_step status acc r = acc) :=
  ⟨pbr_malformed cat row st h,
    fun status r acc h6 => by simp [end_row_step, h6]⟩

/-- Claim C5, witness: a one-cell row and a two-cell end.py row are
dropped without any effect. -/
theorem claim5_witness :
    process_bid_row "Open" c5row c3st = (c3st, false) ∧
    (∀ (status : String) (r : EndRow) (acc : List Dict × List Event),
      r.cells.length < 6 → end_row_step status acc r = acc) :=
  claim5_malformed_row_silent "Open" c5row c3st (by decide)

/-- Claim C3, counterexample: in scraper.py's row loop, a row whose modal
open raises is logged as a row error and the loop continues (the good row
is still appended), but no recovery close of a possibly-open detail
surface is ever attempted — the trace has a row error and no recovery
close — contradicting the claim that the recovery close is attempted. -/
theorem claim3_counterexample :
    Event.rowError ∈ (process_rows "Open" [c3bad, c3good] c3st).trace ∧
    Event.recoveryClose ∉ (process_rows "Open" [c3bad, c3good] c3st).trace ∧
    numRecords (process_rows "Open" [c3bad, c3good] c3st).store = 1 := by
  decide

/-- Claim C3 (amended): a fault while processing one row is caught at row
granularity — the fault is logged and the loop continues, and a row whose
detail open fails leaves the store and seen set exactly as if the row were
absent, so every other row of the page is still processed and appended;
the recovery close of a possibly-open detail surface is attempted by the
end.py variant's row handler (which also keeps the failed row out of the
record list), while scraper.py's handler only logs and continues. -/
theorem claim3_amended_row_isolation (cat : String) (rows1 rows2 : List BidRow)
    (rBad : BidRow) (st : ScrapeState)
    (h7 : ¬ rBad.cells.length < 7)
    (ho : rBad.openFails = true)
    (hs : rowId rBad ∉ (process_rows cat rows1 st).seen) :
    (process_rows cat (rows1 ++ rBad :: rows2) st).store =
      (process_rows cat (rows1 ++ rows2) st).store ∧
    (process_rows cat (rows1 ++ rBad :: rows2) st).seen =
      (process_rows cat (rows1 ++ rows2) st).seen ∧
    Event.rowError ∈ (process_rows cat (rows1 ++ rBad :: rows2) st).trace ∧
    (∀ (status : String) (r : EndRow) (rest : List EndRow)
      (acc : List Dict × List Event),
      ¬ r.cells.length < 6 → r.rowFails = true →
      (process_bids_for_status status (r :: rest) acc).1 =
        (process_bids_for_status status rest acc).1 ∧
      Event.recoveryClose ∈ (process_bids_for_status status (r :: rest) acc).2) := by
  have hiso := rows_isolate cat rBad rows2 (process_rows cat rows1 st) h7 hs ho
  rw [process_rows_append, process_rows_append]
  exact ⟨hiso.1, hiso.2.1, hiso.2.2,
    fun status r rest acc h6 hf => end_isolate status r rest acc h6 hf⟩

/-- Claim C3 (amended), witness at a concrete two-row page. -/
theorem claim3_amended_witness :
    (process_rows "Open" ([] ++ c3bad :: [c3good]) c3st).store =
      (process_rows "Open" ([] ++ [c3good]) c3st).store ∧
    (process_rows "Open" ([] ++ c3bad :: [c3good]) c3st).seen =
      (process_rows "Open" ([] ++ [c3good]) c3st).seen ∧
    Event.rowError ∈ (process_rows "Open" ([] ++ c3bad :: [c3good]) c3st).trace ∧
    (∀ (status : String) (r : EndRow) (rest : List EndRow)
      (acc : List Dict × List Event),
      ¬ r.cells.length < 6 → r.rowFails = true →
      (process_bids_for_status status (r :: rest) acc).1 =
        (process_bids_for_status status rest acc).1 ∧
      Event.recoveryClose ∈ (process_bids_for_status status (r :: rest) acc).2) :=
  claim3_amended_row_isolation "Open" [] [c3good] c3bad c3st
    (by decide) rfl (by decide)

theorem rowStep_escape (cat : String) (st : ScrapeState) (row : BidRow)
    (h7 : ¬ row.cells.length < 7) (hs : rowId row ∉ st.seen)
    (ho : row.openFails = false) (hst : st.store = .absent)
    (hf : row.appendFault ≠ .none) :
    rowStep cat st row = pushTrace st [.openDetail, .appendCall, .rowError] := by
  rw [rowStep, pbr_escape cat row st h7 hs ho hst hf]
  show pushTrace (pushTrace st [Event.openDetail, Event.appendCall])
    [Event.rowError] = _
  rw [pushTrace_pushTrace]
  rfl

/-- Claim C6, counterexample: on the path where the store does not yet
exist, `append_to_excel` writes the new file outside its `try` block, so
both an access-denied fault and any other write fault escape the append
boundary instead of being converted into a logged error result. -/
theorem claim6_counterexample :
    append_to_excel c6rec .absent .permission = .error .permission ∧
    append_to_excel c6rec .absent .other = .error .other :=
  ⟨rfl, rfl⟩

/-- Claim C6 (amended): when the store already exists, `append_to_excel`
never lets a failure escape — an access-denied or any other I/O fault is
converted into a logged error result with the store unchanged; when the
store is absent, a fault-free call creates it with a header, but a write
fault on this creation path escapes the append boundary and is only
contained by the caller's row-level handler, which logs it and lets the
run continue with store and seen set unchanged. -/
theorem claim6_amended_append_fault_handling :
    (∀ (rec : Dict) (cols : List String) (recs : List Dict) (f : AppendFault),
      ∃ st2 logs, append_to_excel rec (.readable cols recs) f = .ok (st2, logs)) ∧
    (∀ (rec : Dict) (cols : List String) (recs : List Dict) (f : AppendFault),
      f ≠ .none →
      ∃ logs, append_to_excel rec (.readable cols recs) f =
          .ok (.readable cols recs, logs) ∧
        ∃ l ∈ logs, l.sev = .error) ∧
    (∀ rec : Dict, append_to_excel rec .absent .none =
      .ok (.readable (dkeys rec) [rec],
        [⟨.info, "Created new Excel file with headers."⟩])) ∧
    (∀ (rec : Dict) (f : AppendFault), f ≠ .none →
      append_to_excel rec .absent f = .error f) ∧
    (∀ (cat : String) (row : BidRow) (st : ScrapeState),
      st.store = .absent → ¬ row.cells.length < 7 → rowId row ∉ st.seen →
      row.openFails = false → row.appendFault ≠ .none →
      rowStep cat st row = pushTrace st [.openDetail, .appendCall, .rowError]) := by
  refine ⟨?_, ?_, fun rec => rfl, ?_, ?_⟩
  · intro rec cols recs f
    cases f with
    | none => exact ⟨_, _, rfl⟩
    | permission => exact ⟨_, _, rfl⟩
    | other => exact ⟨_, _, rfl⟩
  · intro rec cols recs f hf
    cases f with
    | none => exact absurd rfl hf
    | permission =>
      refine ⟨_, rfl, ?_⟩
      exact ⟨_, List.mem_singleton_self _, rfl⟩
    | other =>
      refine ⟨_, rfl, ?_⟩
      exact ⟨_, List.mem_singleton_self _, rfl⟩
  · intro rec f hf
    cases f with
    | none => exact absurd rfl hf
    | permission => rfl
    | other => rfl
  · intro cat row st hst h7 hs ho hf
    exact rowStep_escape cat st row h7 hs ho hst hf

/-- Claim C6 (amended), witness: the caught fault on an existing store and
the contained escape on the creation path, at concrete inputs. -/
theorem claim6_witness :
    (∃ logs, append_to_excel c6rec (.readable ["Bid ID"] []) .permission =
        .ok (.readable ["Bid ID"] [], logs) ∧
      ∃ l ∈ logs, l.sev = .error) ∧
    rowStep "Open" c3st c6row =
      pushTrace c3st [.openDetail, .appendCall, .rowError] :=
  ⟨claim6_amended_append_fault_handling.2.1 c6rec ["Bid ID"] [] .permission
      (by decide),
    claim6_amended_append_fault_handling.2.2.2.2 "Open" c6row c3st rfl
      (by decide) (by decide) rfl (by decide)⟩

/-- Claim C7: when no further page exists the next-page affordance is
disabled and `navigate_to_next_page` returns `false` without error and
without mutating the navigation state; the page loop consults it after
each page, and in the loop's trace the single `advance false` event is the
final event, preceded by exactly one row-fetch per page — so a `false`
return ends the category within one iteration and no further
`currentPageRows` call occurs for it. -/
theorem claim7_pagination_termination :
    (∀ cur : List BidRow, navigate_to_next_page ⟨cur, []⟩ = (false, ⟨cur, []⟩)) ∧
    (∀ (cat : String) (cur : List BidRow) (rest : List (List BidRow))
      (st : ScrapeState),
      scrape_bids_from_table cat cur rest st =
        match navigate_to_next_page ⟨cur, rest⟩ with
        | (false, _) =>
          pushTrace (process_rows cat cur
            (pushTrace st [.fetchRows cat cur.length])) [.advance false]
        | (true, nav) =>
          scrape_bids_from_table cat nav.current nav.rest
            (pushTrace (process_rows cat cur
              (pushTrace st [.fetchRows cat cur.length])) [.advance true])) ∧
    (∀ (cat : String) (cur : List BidRow) (rest : List (List BidRow))
      (st : ScrapeState),
      ∃ t, (scrape_bids_from_table cat cur rest st).trace =
          st.trace ++ t ++ [.advance false] ∧
        Event.advance false ∉ t ∧
        (t.filter isFetch).length = rest.length + 1) :=
  ⟨fun _ => rfl, fun cat cur rest st => scrape_uses_navigate cat cur rest st,
    fun cat cur rest st => scrape_trace_shape rest cur cat st⟩

/-- Claim C8, counterexample: for an unreadable store the loader returns
the empty set but logs at severity error, not warning — no warning line is
produced — contradicting the claim that an unreadable store logs a
warning. -/
theorem claim8_counterexample :
    (load_processed_bid_ids .corrupt).1 = ∅ ∧
    (∀ l ∈ (load_processed_bid_ids .corrupt).2, l.sev ≠ .warning) ∧
    (∃ l ∈ (load_processed_bid_ids .corrupt).2, l.sev = .error) := by
  decide

/-- Claim C8 (amended): `load_processed_bid_ids` is total over store
states and never fails the run: an absent store yields the empty set with
a fresh-start info line; an unreadable store yields the empty set with a
logged error (not a warning); a store without the `Bid ID` column yields
the empty set with a logged warning; otherwise it returns exactly the set
of stringified `Bid ID` values of the stored records. -/
theorem claim8_amended_load_total :
    load_processed_bid_ids .absent =
      (∅, [⟨.info, "No existing Excel file found. Starting fresh."⟩]) ∧
    load_processed_bid_ids .corrupt =
      (∅, [⟨.error, "Error reading Excel file"⟩]) ∧
    (∀ (cols : List String) (recs : List Dict), "Bid ID" ∉ cols →
      load_processed_bid_ids (.readable cols recs) =
        (∅, [⟨.warning,
          "Column Bid ID not found in Excel. Starting with an empty set."⟩])) ∧
    (∀ (cols : List String) (recs : List Dict), "Bid ID" ∈ cols →
      load_processed_bid_ids (.readable cols recs) =
        ((recs.map storedIdStr).toFinset,
          [⟨.info, "Loaded previously scraped bid IDs."⟩])) := by
  refine ⟨rfl, rfl, ?_, ?_⟩ <;> intro cols recs h <;>
    simp [load_processed_bid_ids, h]

/-- Claim C8 (amended), witness at concrete store states. -/
theorem claim8_witness :
    load_processed_bid_ids (.readable ["Other"] []) =
      (∅, [⟨.warning,
        "Column Bid ID not found in Excel. Starting with an empty set."⟩]) ∧
    load_processed_bid_ids (.readable ["Bid ID"] [c6rec]) =
      (([c6rec].map storedIdStr).toFinset,
        [⟨.info, "Loaded previously scraped bid IDs."⟩]) :=
  ⟨claim8_amended_load_total.2.2.1 ["Other"] [] (by decide),
    claim8_amended_load_total.2.2.2 ["Bid ID"] [c6rec] (by decide)⟩

theorem dlookup_some_mem : ∀ (d : Dict) (k : String) (v : PyVal),
    dlookup k d = some v → k ∈ dkeys d
  | [], _, _, h => by simp [dlookup, List.lookup] at h
  | (k2, v2) :: ds, k, v, h => by
    by_cases hk : k = k2
    · rw [dkeys_cons, hk]
      exact List.mem_cons_self k2 _
    · rw [dlookup_cons_ne _ _ _ _ hk] at h
      rw [dkeys_cons]
      exact List.mem_cons_of_mem _ (dlookup_some_mem ds k v h)

theorem dmerge_summary_modal (c : String) (b : Option String)
    (cells : List Cell) (m : ModalContent) :
    dmerge (bid_summary c b cells) (extract_modal_data m) =
      bid_summary c b cells ++ extract_modal_data m :=
  fullRecord_eq_append c b cells m

/-- Claim C9: for every RowSummary and DetailRecord pair the key sets are
disjoint under the fixed schemas, the merged record's key list is exactly
the concatenation of the summary keys (which include `Category` and
`Bid ID`) and the detail keys, and no binding of either side is
overwritten by the merge. -/
theorem claim9_disjoint_merge (c : String) (b : Option String)
    (cells : List Cell) (m : ModalContent) :
    dkeys (dmerge (bid_summary c b cells) (extract_modal_data m)) =
      dkeys (bid_summary c b cells) ++ dkeys (extract_modal_data m) ∧
    (dkeys (bid_summary c b cells)).Disjoint (dkeys (extract_modal_data m)) ∧
    "Category" ∈ dkeys (bid_summary c b cells) ∧
    "Bid ID" ∈ dkeys (bid_summary c b cells) ∧
    (∀ (k : String) (v : PyVal), dlookup k (bid_summary c b cells) = some v →
      dlookup k (dmerge (bid_summary c b cells) (extract_modal_data m)) = some v) ∧
    (∀ (k : String) (v : PyVal), dlookup k (extract_modal_data m) = some v →
      dlookup k (dmerge (bid_summary c b cells) (extract_modal_data m)) = some v) := by
  refine ⟨?_, ?_, ?_, ?_, ?_, ?_⟩
  · rw [dmerge_summary_modal, dkeys_append]
  · rw [dkeys_summary, dkeys_modal]
    intro a ha
    fin_cases ha <;> decide
  · rw [dkeys_summary]
    decide
  · rw [dkeys_summary]
    decide
  · intro k v h
    rw [dmerge_summary_modal]
    exact dlookup_append_left _ _ k v h
  · intro k v h
    have hk : k ∈ dkeys (extract_modal_data m) := dlookup_some_mem _ k v h
    have hk2 : k ∉ dkeys (bid_summary c b cells) := by
      rw [dkeys_modal] at hk
      rw [dkeys_summary]
      fin_cases hk <;> decide
    rw [dmerge_summary_modal, dlookup_append_right _ _ k hk2]
    exact h

/-- Claim C9, witness: at a concrete pair the merge keeps the summary's
`Bid ID` binding and the detail's `Contact Email` binding. -/
theorem claim9_witness :
    dkeys (dmerge (bid_summary "Open" (some "B1") (exCells (some "B1")))
        (extract_modal_data exModal)) =
      dkeys (bid_summary "Open" (some "B1") (exCells (some "B1"))) ++
        dkeys (extract_modal_data exModal) ∧
    dlookup "Bid ID" (dmerge (bid_summary "Open" (some "B1")
        (exCells (some "B1"))) (extract_modal_data exModal)) =
      some (.vStr "B1") ∧
    dlookup "Contact Email" (dmerge (bid_summary "Open" (some "B1")
        (exCells (some "B1"))) (extract_modal_data exModal)) =
      some (.vStr "N/A") :=
  ⟨(claim9_disjoint_merge "Open" (some "B1") (exCells (some "B1")) exModal).1,
    (claim9_disjoint_merge "Open" (some "B1") (exCells (some "B1")) exModal).2.2.2.2.1
      "Bid ID" (.vStr "B1") (by decide),
    (claim9_disjoint_merge "Open" (some "B1") (exCells (some "B1")) exModal).2.2.2.2.2
      "Contact Email" (.vStr "N/A") (by decide)⟩

/-- Claim C10, counterexample: over the store's lifetime the dedup of
identifier-less rows fails across runs.  The first run records the
identifier-less row, but the stored null identifier reads back as `nan`
rather than the in-run key `None`, so a second run over the same data does
not skip the identifier-less row as a duplicate — it records it again. -/
theorem claim10_counterexample :
    numRecords (runScraper c10cats .absent).store = 1 ∧
    "None" ∉ (load_processed_bid_ids (runScraper c10cats .absent).store).1 ∧
    "nan" ∈ (load_processed_bid_ids (runScraper c10cats .absent).store).1 ∧
    numRecords (runScraper c10cats (runScraper c10cats .absent).store).store = 2 := by
  decide

/-- Claim C10 (amended): a row whose identifier cell exists but has no
title attribute is not treated as malformed: within a run its dedup key is
the stringified null identifier `None`, the first such row is processed
and appended with a null `Bid ID` field (here on a fault-free path over an
existing store), and every later identifier-less row of the same run is
skipped as its duplicate once `None` is in the in-run seen set.  Across
runs the dedup does not hold: the stored null identifier reads back
through the Excel round-trip as `nan`, not `None`, so each later run
re-records one identifier-less row. -/
theorem claim10_none_id_dedup (cat cat2 : String) (row row2 : BidRow)
    (st : ScrapeState) (cols : List String) (recs : List Dict)
    (h7 : ¬ row.cells.length < 7)
    (hid : (cellD row.cells 0).title = Option.none)
    (hs : "None" ∉ st.seen)
    (ho : row.openFails = false) (hf : row.appendFault = .none)
    (hst : st.store = .readable cols recs) :
    rowId row = "None" ∧
    process_bid_row cat row st =
      ({ pushTrace st [.openDetail, .appendCall, .logSuccess "None"] with
          store := .readable cols (recs ++ [rowRecord cat row]),
          seen := insert "None" st.seen }, false) ∧
    dlookup "Bid ID" (rowRecord cat row) = some .vNone ∧
    storedIdStr (rowRecord cat row) = "nan" ∧
    (∀ st2 : ScrapeState, ¬ row2.cells.length < 7 →
      (cellD row2.cells 0).title = Option.none → "None" ∈ st2.seen →
      process_bid_row cat2 row2 st2 = (pushTrace st2 [.logSkip "None"], false)) := by
  have hrid : rowId row = "None" := by
    rw [rowId, hid]
    rfl
  refine ⟨hrid, ?_, ?_, storedIdStr_rowRecord_none cat row hid, ?_⟩
  · have h := pbr_appended cat row st cols recs h7 (by rw [hrid]; exact hs) ho hst hf
    rw [hrid] at h
    exact h
  · rw [rowRecord, hid, dlookup_full_bidid]
    rfl
  · intro st2 h72 hid2 hs2
    have hrid2 : rowId row2 = "None" := by
      rw [rowId, hid2]
      rfl
    have h := pbr_skip cat2 row2 st2 h72 (by rw [hrid2]; exact hs2)
    rw [hrid2] at h
    exact h

/-- Claim C10 (amended), witness: the identifier-less row is recorded once
with in-run key `None` and read-back id `nan`, and a second
identifier-less row of the same run is skipped as its duplicate. -/
theorem claim10_witness :
    rowId c10row = "None" ∧
    process_bid_row "Open" c10row c1st =
      ({ pushTrace c1st [.openDetail, .appendCall, .logSuccess "None"] with
          store := .readable ["Bid ID"] ([] ++ [rowRecord "Open" c10row]),
          seen := insert "None" c1st.seen }, false) ∧
    dlookup "Bid ID" (rowRecord "Open" c10row) = some .vNone ∧
    storedIdStr (rowRecord "Open" c10row) = "nan" ∧
    (∀ st2 : ScrapeState, ¬ c10row.cells.length < 7 →
      (cellD c10row.cells 0).title = Option.none → "None" ∈ st2.seen →
      process_bid_row "Open" c10row st2 =
        (pushTrace st2 [.logSkip "None"], false)) :=
  claim10_none_id_dedup "Open" "Open" c10row c10row c1st ["Bid ID"] []
    (by decide) (by decide) (by decide) rfl rfl rfl

end Claims

end BidScraper
